import Mathlib

/-!
Verification of the `rdisk_shared` crate (src/lib.rs): byte reinterpretation
(`AsByteSlice` for fixed-width integers, slices and vectors), the generic
`StructBuffer<T>` record buffer, and the null-safe pointer helpers.

Modelling conventions:
* A byte is a `Nat` (values produced by the encoders are `< 256`).
* A `Copy` record type `T` is modelled by a `Pod` package: its `size_of`,
  its bit-pattern encoder `encode : T → List Nat` (the machine byte layout,
  little-endian on the crate's target platforms) and the reverse
  reinterpretation `decode`, together with the laws any fixed-layout `Copy`
  type satisfies: `encode` produces exactly `size` bytes, reinterpreting an
  encoded value gives it back bit-identically, and reinterpretation only
  looks at the first `size` bytes of the storage.
* `StructBuffer<T>` owns `buffer: Vec<u8>`, modelled as a `List Nat`.
  Writing through a `&mut` view returned by the Rust code is modelled as an
  explicit state update on that list.
* Uninitialized allocations (`Vec::with_capacity` + `set_len`) have exact
  length and arbitrary contents; the arbitrary contents are supplied by a
  `junk : Nat → Nat` oracle giving the byte at each index.
-/

/-- A fixed-layout (`Sized + Copy`) record type together with its byte-level
semantics: `size` is `core::mem::size_of::<T>()`, `encode` the bit pattern of
a value and `decode` the reinterpretation of a byte storage as `T`. -/
structure Pod (α : Type) where
  size : Nat
  encode : α → List Nat
  decode : List Nat → α
  encode_length : ∀ v, (encode v).length = size
  decode_encode : ∀ v, decode (encode v) = v
  decode_take : ∀ bs, decode bs = decode (bs.take size)

/-- `pub unsafe fn alloc_buffer(size: usize) -> Vec<u8>`:
`Vec::with_capacity(size)` followed by `set_len(size)`.  The result has
length exactly `size` and unspecified contents, supplied here by `junk`. -/
def alloc_buffer (size : Nat) (junk : Nat → Nat) : List Nat :=
  (List.range size).map junk

/-- `pub struct StructBuffer<T: Sized> { buffer: Vec<u8>, .. }`. -/
structure StructBuffer (α : Type) where
  buffer : List Nat
  deriving DecidableEq

/-- `StructBuffer::<T>::new()`: allocates `size_of::<T>()` uninitialized bytes. -/
def StructBuffer.new (P : Pod α) (junk : Nat → Nat) : StructBuffer α :=
  ⟨alloc_buffer P.size junk⟩

/-- `StructBuffer::<T>::with_ext(ext_size)`: allocates
`size_of::<T>() + ext_size` uninitialized bytes. -/
def StructBuffer.with_ext (P : Pod α) (ext_size : Nat) (junk : Nat → Nat) :
    StructBuffer α :=
  ⟨alloc_buffer (P.size + ext_size) junk⟩

/-- `StructBuffer::<T>::with_buffer(buffer)`: panics with
`"Insufficient buffer size!"` when `buffer.len() < size_of::<T>()`, otherwise
adopts the buffer unchanged.  The panic is modelled as `Except.error`. -/
def StructBuffer.with_buffer (P : Pod α) (buffer : List Nat) :
    Except String (StructBuffer α) :=
  if buffer.length < P.size then
    .error "Insufficient buffer size!"
  else
    .ok ⟨buffer⟩

/-- `StructBuffer::<T>::zeroed()`: `vec![0u8; size_of::<T>()]`. -/
def StructBuffer.zeroed (P : Pod α) : StructBuffer α :=
  ⟨List.replicate P.size 0⟩

/-- `StructBuffer::len`: `self.buffer.len()`. -/
def StructBuffer.len (b : StructBuffer α) : Nat :=
  b.buffer.length

/-- `StructBuffer::raw`: `&*(self.buffer.as_ptr() as *const T)` — the first
`size_of::<T>()` bytes of the buffer reinterpreted as `T`. -/
def StructBuffer.raw (P : Pod α) (b : StructBuffer α) : α :=
  P.decode b.buffer

/-- The state update performed by writing a whole value through
`StructBuffer::raw_mut`, i.e. `*self.raw_mut() = v`: the first
`size_of::<T>()` bytes become the bit pattern of `v`, the rest is untouched. -/
def StructBuffer.raw_mut_set (P : Pod α) (b : StructBuffer α) (v : α) :
    StructBuffer α :=
  ⟨P.encode v ++ b.buffer.drop P.size⟩

/-- `StructBuffer::ext_buffer`: `&self.buffer[size_of::<T>()..]`. -/
def StructBuffer.ext_buffer (P : Pod α) (b : StructBuffer α) : List Nat :=
  b.buffer.drop P.size

/-- The state update performed by writing byte `v` at index `i` of the slice
returned by `StructBuffer::ext_buffer_mut` (`&mut self.buffer[size_of::<T>()..]`):
buffer index `size_of::<T>() + i` is overwritten. -/
def StructBuffer.ext_buffer_mut_set (P : Pod α) (b : StructBuffer α)
    (i v : Nat) : StructBuffer α :=
  ⟨b.buffer.set (P.size + i) v⟩

/-- The state update performed by writing byte `v` at index `i` of the slice
returned by the buffer's `as_byte_slice_mut` (the whole raw buffer). -/
def StructBuffer.byte_set (b : StructBuffer α) (i v : Nat) : StructBuffer α :=
  ⟨b.buffer.set i v⟩

/-- `StructBuffer::has_ext_buffer`: `!self.ext_buffer().is_empty()`. -/
def StructBuffer.has_ext_buffer (P : Pod α) (b : StructBuffer α) : Bool :=
  !(b.ext_buffer P).isEmpty

/-- `StructBuffer::copy`: `*self.raw()`. -/
def StructBuffer.copy (P : Pod α) (b : StructBuffer α) : α :=
  b.raw P

/-- `StructBuffer::take(self)`: `*self.raw()` (consuming the buffer). -/
def StructBuffer.take (P : Pod α) (b : StructBuffer α) : α :=
  b.raw P

/-- The `#[repr(C, packed)] struct S { byte: u8, word: u16 }` used by the
crate's tests: `size_of::<S>() = 3`, field values carried with their machine
ranges. -/
structure S where
  byte : Fin 256
  word : Fin 65536
  deriving DecidableEq

/-- Machine byte layout of `S` (packed, little-endian): one byte for `byte`
followed by the two little-endian bytes of `word`. -/
def S.encode (s : S) : List Nat :=
  [s.byte.val, s.word.val % 256, s.word.val / 256]

/-- Reinterpretation of a byte storage as `S` (reads the first 3 bytes). -/
def S.decode (bs : List Nat) : S :=
  { byte := ⟨bs.getD 0 0 % 256, Nat.mod_lt _ (by decide)⟩
    word := ⟨bs.getD 1 0 % 256 + 256 * (bs.getD 2 0 % 256), by
      have h1 : bs.getD 1 0 % 256 < 256 := Nat.mod_lt _ (by decide)
      have h2 : bs.getD 2 0 % 256 < 256 := Nat.mod_lt _ (by decide)
      omega⟩ }

/-- The `Pod` package for the test struct `S`. -/
def S.pod : Pod S where
  size := 3
  encode := S.encode
  decode := S.decode
  encode_length := fun _ => rfl
  decode_encode := by
    intro v
    obtain ⟨b, w⟩ := v
    have hb := b.isLt
    have hw := w.isLt
    simp only [S.encode, S.decode, List.getD, S.mk.injEq]
    constructor <;> (apply Fin.ext; simp; try omega)
  decode_take := by
    intro bs
    match bs with
    | [] => rfl
    | [a] => rfl
    | [a, b] => rfl
    | a :: b :: c :: rest => rfl

/-! ### The `AsByteSlice` capability for fixed-width integers (`impl_int!`)

The macro grants `AsByteSlice` to `u8/u16/u32/u64/i8/i16/i32/i64`, to slices
of them and to vectors of them.  A `w`-byte integer value is carried as its
bit pattern, a `Nat < 2^(8*w)` (two's complement for the signed types); the
byte view produced by pointer reinterpretation is its little-endian byte
layout on the crate's target platforms. -/

/-- Little-endian machine byte layout of a `w`-byte integer bit pattern. -/
def intToBytes (w : Nat) (v : Nat) : List Nat :=
  (List.range w).map fun i => v / 256 ^ i % 256

/-- `<$name as AsByteSlice>::as_byte_slice`:
`from_raw_parts(self as *const _ as *const u8, size_of::<$name>())` — the
`w = size_of::<$name>()` bytes of the value. -/
def int_as_byte_slice (w : Nat) (v : Nat) : List Nat :=
  intToBytes w v

/-- `<[$name] as AsByteSlice>::as_byte_slice`:
`from_raw_parts(self.as_ptr() as *const u8, self.len() * size_of::<$name>())`
— the elements' byte layouts, contiguous and in order.  The `Vec<$name>`
implementation produces exactly the same bytes. -/
def slice_as_byte_slice (w : Nat) (vs : List Nat) : List Nat :=
  (vs.map (intToBytes w)).flatten

/-- The byte widths `size_of` gives the eight integer types covered by the
`impl_int!` invocations: `u8/i8`, `u16/i16`, `u32/i32`, `u64/i64`. -/
def supported_int_widths : List Nat := [1, 2, 4, 8]

/-! ### Null-safe pointers

A Rust slice is a (non-null) data pointer plus a list of elements; addresses
are `Nat` with `0` the null pointer.  `base` is the address of the first
element when the slice is non-empty. -/

/-- A borrowed slice `&[T]`: data pointer (never null, `base_pos`) and
elements. -/
structure RustSlice (α : Type) where
  base : Nat
  data : List α
  base_pos : 0 < base

/-- `<&[T] as NullSafePtr<T>>::safe_ptr`: null when empty, `self.as_ptr()`
otherwise. -/
def RustSlice.safe_ptr (s : RustSlice α) : Nat :=
  if s.data.isEmpty then 0 else s.base

/-- An owned `Vec<T>`: allocation address (never null — `Vec` uses a dangling
aligned pointer when empty) and elements. -/
structure RustVec (α : Type) where
  base : Nat
  data : List α
  base_pos : 0 < base

/-- `Vec::as_slice`. -/
def RustVec.as_slice (v : RustVec α) : RustSlice α :=
  ⟨v.base, v.data, v.base_pos⟩

/-- `<Vec<T> as NullSafePtr<T>>::safe_ptr`: `self.as_slice().safe_ptr()`. -/
def RustVec.safe_ptr (v : RustVec α) : Nat :=
  v.as_slice.safe_ptr

/-! ### Alignment of the backing allocation

`alloc_buffer` builds the backing storage as `Vec::<u8>::with_capacity(size)`:
the Rust allocator is asked for a `u8` allocation, so the only alignment the
allocator guarantees is `align_of::<u8>() = 1`.  `StructBuffer::raw` then
casts `self.buffer.as_ptr()` to `*const T` with
`#[allow(clippy::cast_ptr_alignment)]`.  An allocation whose guaranteed
alignment is `g` satisfies a type's alignment requirement `a` exactly when
`a ∣ g` (both are powers of two). -/

/-- Alignment guarantee of the `Vec<u8>` allocation made by `alloc_buffer`
(and by `vec![0u8; n]` in `zeroed`): `align_of::<u8>() = 1`. -/
def alloc_buffer_align : Nat := 1

/-- `align_of::<u16>()` on the crate's target platforms. -/
def u16_align : Nat := 2

/-- `g` guarantees alignment requirement `a` iff `a` divides `g`. -/
def align_satisfies (g a : Nat) : Prop := a ∣ g

/-! ### Helper lemmas -/

theorem alloc_buffer_length (size : Nat) (junk : Nat → Nat) :
    (alloc_buffer size junk).length = size := by
  simp [alloc_buffer]

theorem intToBytes_length (w v : Nat) : (intToBytes w v).length = w := by
  simp [intToBytes]

theorem take_set_of_le (l : List Nat) (s n v : Nat) (h : s ≤ n) :
    (l.set n v).take s = l.take s := by
  rw [List.set_take]
  apply List.set_eq_of_length_le
  have := List.length_take s l
  omega

/-! ### Claims -/

/-- C1: for every `Copy` type `T` and value `v`, writing `v` into the record
region through `raw_mut` and then reading the raw byte view (`buffer`) yields
a byte sequence whose first `size_of::<T>()` bytes are the bit pattern of `v`
and, reinterpreted back as `T`, are bit-identical to `v`. -/
theorem c1_typed_write_raw_read_roundtrip {α : Type} (P : Pod α)
    (b : StructBuffer α) (v : α) :
    ((b.raw_mut_set P v).buffer).take P.size = P.encode v ∧
    P.decode (((b.raw_mut_set P v).buffer).take P.size) = v ∧
    (b.raw_mut_set P v).raw P = v := by
  have htake : ((b.raw_mut_set P v).buffer).take P.size = P.encode v := by
    simp only [StructBuffer.raw_mut_set]
    exact List.take_left' (P.encode_length v)
  refine ⟨htake, ?_, ?_⟩
  · rw [htake, P.decode_encode]
  · rw [StructBuffer.raw, P.decode_take, htake, P.decode_encode]

/-- C2: `with_buffer` fails with the `"Insufficient buffer size!"` panic when
the supplied buffer is shorter than `size_of::<T>()`, and otherwise succeeds
with a buffer whose `len()` equals the supplied buffer's length (no
truncation or padding). -/
theorem c2_with_buffer_checks {α : Type} (P : Pod α) (bs : List Nat) :
    (bs.length < P.size →
      StructBuffer.with_buffer P bs
        = (.error "Insufficient buffer size!" : Except String (StructBuffer α))) ∧
    (P.size ≤ bs.length →
      StructBuffer.with_buffer P bs = .ok ⟨bs⟩ ∧
      (⟨bs⟩ : StructBuffer α).len = bs.length) := by
  constructor
  · intro h
    simp [StructBuffer.with_buffer, h]
  · intro h
    refine ⟨?_, rfl⟩
    simp [StructBuffer.with_buffer, Nat.not_lt.mpr h]

/-- Witness for C2 with the test struct `S` (`size_of = 3`): a 2-byte buffer
is rejected with the panic message, a 4-byte buffer is adopted with
`len() = 4`. -/
theorem c2_with_buffer_checks_witness :
    StructBuffer.with_buffer S.pod [0, 0]
      = (.error "Insufficient buffer size!" : Except String (StructBuffer S)) ∧
    StructBuffer.with_buffer S.pod [0, 0, 0, 0] = .ok ⟨[0, 0, 0, 0]⟩ ∧
    (⟨[0, 0, 0, 0]⟩ : StructBuffer S).len = 4 :=
  ⟨(c2_with_buffer_checks S.pod [0, 0]).1 (by decide),
    ((c2_with_buffer_checks S.pod [0, 0, 0, 0]).2 (by decide)).1,
    ((c2_with_buffer_checks S.pod [0, 0, 0, 0]).2 (by decide)).2⟩

/-- C3: every constructor produces a buffer with `len() ≥ size_of::<T>()`
(`new` and `zeroed` give exactly `size`, `with_ext` gives `size + ext_size`,
`with_buffer` checks), and no subsequent operation changes the buffer's
length (writes through `raw_mut`, `ext_buffer_mut` and the raw mutable byte
view all preserve it). -/
theorem c3_capacity_invariant {α : Type} (P : Pod α) :
    (∀ junk, P.size ≤ (StructBuffer.new P junk).len) ∧
    (∀ e junk, P.size ≤ (StructBuffer.with_ext P e junk).len) ∧
    (∀ bs b, StructBuffer.with_buffer P bs = .ok b → P.size ≤ b.len) ∧
    P.size ≤ (StructBuffer.zeroed P).len ∧
    (∀ b v, P.size ≤ b.len → (StructBuffer.raw_mut_set P b v).len = b.len) ∧
    (∀ b i v, (StructBuffer.ext_buffer_mut_set P b i v).len = b.len) ∧
    (∀ (b : StructBuffer α) (i v : Nat), (StructBuffer.byte_set b i v).len = b.len) := by
  refine ⟨?_, ?_, ?_, ?_, ?_, ?_, ?_⟩
  · intro junk
    simp [StructBuffer.new, StructBuffer.len, alloc_buffer_length]
  · intro e junk
    simp [StructBuffer.with_ext, StructBuffer.len, alloc_buffer_length]
  · intro bs b h
    by_cases hlt : bs.length < P.size
    · simp [StructBuffer.with_buffer, hlt] at h
    · simp [StructBuffer.with_buffer, hlt] at h
      subst h
      simp only [StructBuffer.len]
      omega
  · simp [StructBuffer.zeroed, StructBuffer.len]
  · intro b v h
    simp only [StructBuffer.len] at h ⊢
    simp only [StructBuffer.raw_mut_set, List.length_append, List.length_drop,
      P.encode_length]
    omega
  · intro b i v
    simp [StructBuffer.ext_buffer_mut_set, StructBuffer.len]
  · intro b i v
    simp [StructBuffer.byte_set, StructBuffer.len]

/-- Witness for C3 with the test struct `S`: the zeroed 3-byte buffer and an
adopted 4-byte buffer satisfy the capacity invariant, and writing a whole
record value preserves the length. -/
theorem c3_capacity_invariant_witness :
    S.pod.size ≤ (StructBuffer.zeroed S.pod).len ∧
    (StructBuffer.raw_mut_set S.pod (StructBuffer.zeroed S.pod)
        ⟨(12 : Fin 256), (0 : Fin 65536)⟩).len = (StructBuffer.zeroed S.pod).len ∧
    S.pod.size ≤ (⟨[0, 0, 0, 0]⟩ : StructBuffer S).len :=
  ⟨(c3_capacity_invariant S.pod).2.2.2.1,
    (c3_capacity_invariant S.pod).2.2.2.2.1 (StructBuffer.zeroed S.pod)
      ⟨(12 : Fin 256), (0 : Fin 65536)⟩ (by decide),
    (c3_capacity_invariant S.pod).2.2.1 [0, 0, 0, 0] ⟨[0, 0, 0, 0]⟩ rfl⟩

/-- C4: `zeroed()` builds a buffer of exactly `size_of::<T>()` bytes, all
zero, so the typed view `raw()` immediately reads the all-zero-bit-pattern
value of `T` with no prior write; for the test struct `S` every field reads
back zero. -/
theorem c4_zeroed_reads_zero :
    (∀ (α : Type) (P : Pod α),
      (StructBuffer.zeroed P).buffer = List.replicate P.size 0 ∧
      (StructBuffer.zeroed P).len = P.size ∧
      StructBuffer.raw P (StructBuffer.zeroed P)
        = P.decode (List.replicate P.size 0)) ∧
    StructBuffer.raw S.pod (StructBuffer.zeroed S.pod) = ⟨0, 0⟩ := by
  refine ⟨fun α P => ⟨rfl, ?_, rfl⟩, by decide⟩
  simp [StructBuffer.zeroed, StructBuffer.len]

theorem slice_as_byte_slice_length (w : Nat) (vs : List Nat) :
    (slice_as_byte_slice w vs).length = vs.length * w := by
  induction vs with
  | nil => simp [slice_as_byte_slice]
  | cons a t ih =>
    have ih' : (List.map (intToBytes w) t).flatten.length = t.length * w := ih
    simp only [slice_as_byte_slice, List.map_cons, List.flatten_cons,
      List.length_append, intToBytes_length, List.length_cons, ih']
    ring

theorem slice_as_byte_slice_chunk (w : Nat) (vs : List Nat) (i : Nat)
    (h : i < vs.length) :
    ((slice_as_byte_slice w vs).drop (i * w)).take w
      = int_as_byte_slice w (vs.get ⟨i, h⟩) := by
  induction vs generalizing i with
  | nil => simp at h
  | cons a t ih =>
    cases i with
    | zero =>
      simp only [slice_as_byte_slice, List.map_cons, List.flatten_cons,
        Nat.zero_mul, List.drop_zero, int_as_byte_slice, List.get]
      exact List.take_left' (intToBytes_length w a)
    | succ j =>
      have hj : j < t.length := by simpa using h
      have harith : (j + 1) * w = (intToBytes w a).length + j * w := by
        rw [intToBytes_length]
        ring
      simp only [slice_as_byte_slice, List.map_cons, List.flatten_cons]
      rw [harith, ← List.drop_drop, List.drop_left]
      exact ih j hj

/-- C5: for each supported fixed-width integer type (widths 1/2/4/8 bytes for
`u8/i8`, `u16/i16`, `u32/i32`, `u64/i64`), `as_byte_slice` on a value has
length exactly `size_of`, and on a slice or `Vec` of `N` elements has length
exactly `N * size_of`, covering the elements contiguously in their original
order (the bytes at offset `i * size_of` are exactly element `i`'s bytes). -/
theorem c5_as_byte_slice_lengths :
    (∀ w v, (int_as_byte_slice w v).length = w) ∧
    (∀ w vs, (slice_as_byte_slice w vs).length = vs.length * w) ∧
    (∀ (w : Nat) (vs : List Nat) (i : Nat) (h : i < vs.length),
      ((slice_as_byte_slice w vs).drop (i * w)).take w
        = int_as_byte_slice w (vs.get ⟨i, h⟩)) :=
  ⟨fun w v => intToBytes_length w v, slice_as_byte_slice_length,
    slice_as_byte_slice_chunk⟩

/-- Witness for C5 at `w = 2` (`u16`), the value `772` and the slice
`[1, 2, 3]` (the crate's own test data). -/
theorem c5_as_byte_slice_lengths_witness :
    (int_as_byte_slice 2 772).length = 2 ∧
    (slice_as_byte_slice 2 [1, 2, 3]).length = 3 * 2 ∧
    ((slice_as_byte_slice 2 [1, 2, 3]).drop (1 * 2)).take 2
      = int_as_byte_slice 2 ([1, 2, 3].get ⟨1, by decide⟩) :=
  ⟨c5_as_byte_slice_lengths.1 2 772,
    c5_as_byte_slice_lengths.2.1 2 [1, 2, 3],
    c5_as_byte_slice_lengths.2.2 2 [1, 2, 3] 1 (by decide)⟩

/-- C6: `with_ext(ext_size)` gives `len() = size_of::<T>() + ext_size` and an
extension slice of length `ext_size`; `new` and `zeroed` (no extension) give
`has_ext_buffer() = false` and an empty extension slice; and under the
capacity invariant, `has_ext_buffer()` holds exactly when
`len() > size_of::<T>()`. -/
theorem c6_extension_semantics {α : Type} (P : Pod α) :
    (∀ e junk, (StructBuffer.with_ext P e junk).len = P.size + e ∧
      (StructBuffer.ext_buffer P (StructBuffer.with_ext P e junk)).length = e) ∧
    (∀ junk, StructBuffer.has_ext_buffer P (StructBuffer.new P junk) = false ∧
      (StructBuffer.ext_buffer P (StructBuffer.new P junk)).length = 0) ∧
    (StructBuffer.has_ext_buffer P (StructBuffer.zeroed P) = false ∧
      (StructBuffer.ext_buffer P (StructBuffer.zeroed P)).length = 0) ∧
    (∀ b : StructBuffer α, P.size ≤ b.len →
      (StructBuffer.has_ext_buffer P b = true ↔ P.size < b.len)) := by
  refine ⟨?_, ?_, ?_, ?_⟩
  · intro e junk
    constructor
    · simp [StructBuffer.with_ext, StructBuffer.len, alloc_buffer_length]
    · simp [StructBuffer.with_ext, StructBuffer.ext_buffer, alloc_buffer_length]
  · intro junk
    constructor
    · simp only [StructBuffer.has_ext_buffer, StructBuffer.ext_buffer,
        StructBuffer.new, Bool.not_eq_false]
      rw [List.drop_eq_nil_of_le (by simp [alloc_buffer_length])]
      rfl
    · simp [StructBuffer.new, StructBuffer.ext_buffer, alloc_buffer_length]
  · constructor
    · simp only [StructBuffer.has_ext_buffer, StructBuffer.ext_buffer,
        StructBuffer.zeroed, Bool.not_eq_false]
      rw [List.drop_eq_nil_of_le (by simp)]
      rfl
    · simp [StructBuffer.zeroed, StructBuffer.ext_buffer]
  · intro b hb
    simp only [StructBuffer.len] at hb ⊢
    simp only [StructBuffer.has_ext_buffer, StructBuffer.ext_buffer,
      Bool.not_eq_eq_eq_not, Bool.not_true, List.isEmpty_eq_false, ne_eq,
      List.drop_eq_nil_iff]
    omega

/-- Witness for C6 using the test struct `S` (`size_of = 3`) with a 4-byte
extension: `len() = 7` and a buffer of length 7 has an extension. -/
theorem c6_extension_semantics_witness :
    (StructBuffer.with_ext S.pod 4 (fun _ => 0)).len = S.pod.size + 4 ∧
    (StructBuffer.ext_buffer S.pod
      (StructBuffer.with_ext S.pod 4 (fun _ => 0))).length = 4 ∧
    (StructBuffer.has_ext_buffer S.pod
        (⟨[0, 0, 0, 0, 0, 0, 0]⟩ : StructBuffer S) = true ↔
      S.pod.size < (⟨[0, 0, 0, 0, 0, 0, 0]⟩ : StructBuffer S).len) :=
  ⟨((c6_extension_semantics S.pod).1 4 (fun _ => 0)).1,
    ((c6_extension_semantics S.pod).1 4 (fun _ => 0)).2,
    (c6_extension_semantics S.pod).2.2.2 ⟨[0, 0, 0, 0, 0, 0, 0]⟩ (by decide)⟩

/-- C7 (refuted by the code): the claim says the backing allocation is
guaranteed `T`-aligned by the allocator.  In the code, `alloc_buffer` (and
`vec![0u8; n]`) allocate a `Vec<u8>`, whose allocator-guaranteed alignment is
`align_of::<u8>() = 1`, and `raw`/`raw_mut` cast the byte pointer to
`*const T`/`*mut T` with `#[allow(clippy::cast_ptr_alignment)]`.  For
`T = u16` (alignment 2) the guarantee does not hold. -/
theorem c7_alloc_alignment_bug :
    alloc_buffer_align = 1 ∧ u16_align = 2 ∧
    ¬ align_satisfies alloc_buffer_align u16_align := by
  refine ⟨rfl, rfl, ?_⟩
  simp [align_satisfies, alloc_buffer_align, u16_align]

/-- C8: `copy()` and `take()` both return the record region (the first
`size_of::<T>()` bytes at the time of the call) reinterpreted as `T`, and on
the same buffer state they return equal values. -/
theorem c8_copy_take_agree {α : Type} (P : Pod α) (b : StructBuffer α) :
    StructBuffer.copy P b = P.decode (b.buffer.take P.size) ∧
    StructBuffer.take P b = P.decode (b.buffer.take P.size) ∧
    StructBuffer.copy P b = StructBuffer.take P b := by
  refine ⟨?_, ?_, rfl⟩ <;>
    simp only [StructBuffer.copy, StructBuffer.take, StructBuffer.raw,
      ← P.decode_take]

/-- Concrete slices and vectors for the C9 witness (data pointer `100`). -/
def sampleEmptySlice : RustSlice Nat := ⟨100, [], by omega⟩

def sampleSlice : RustSlice Nat := ⟨100, [7], by omega⟩

def sampleEmptyVec : RustVec Nat := ⟨100, [], by omega⟩

def sampleVec : RustVec Nat := ⟨100, [7], by omega⟩

/-- C9: `safe_ptr` on a slice or `Vec` returns the null pointer when the
sequence is empty, and a non-null pointer to the first element (the data
pointer) when non-empty. -/
theorem c9_safe_ptr_null_semantics {α : Type} (s : RustSlice α)
    (v : RustVec α) :
    (s.data = [] → s.safe_ptr = 0) ∧
    (s.data ≠ [] → s.safe_ptr = s.base ∧ s.safe_ptr ≠ 0) ∧
    (v.data = [] → v.safe_ptr = 0) ∧
    (v.data ≠ [] → v.safe_ptr = v.base ∧ v.safe_ptr ≠ 0) := by
  have hs := s.base_pos
  have hv := v.base_pos
  refine ⟨?_, ?_, ?_, ?_⟩ <;>
    intro h <;>
    simp_all [RustSlice.safe_ptr, RustVec.safe_ptr, RustVec.as_slice]
  · omega
  · omega

/-- Witness for C9: the empty slice maps to null, the singleton slice and
vector map to their (non-null) data pointer. -/
theorem c9_safe_ptr_null_semantics_witness :
    sampleEmptySlice.safe_ptr = 0 ∧
    sampleSlice.safe_ptr = sampleSlice.base ∧
    sampleEmptyVec.safe_ptr = 0 ∧
    sampleVec.safe_ptr ≠ 0 :=
  ⟨(c9_safe_ptr_null_semantics sampleEmptySlice sampleEmptyVec).1 rfl,
    ((c9_safe_ptr_null_semantics sampleSlice sampleVec).2.1 (by decide)).1,
    (c9_safe_ptr_null_semantics sampleEmptySlice sampleEmptyVec).2.2.1 rfl,
    ((c9_safe_ptr_null_semantics sampleSlice sampleVec).2.2.2 (by decide)).2⟩

/-- C10 (frame property): a write through `ext_buffer_mut` touches only
buffer indices at `size_of::<T>()` and beyond, so the record region (the
first `size_of::<T>()` bytes) and the value observed through `raw()` are
unchanged. -/
theorem c10_ext_write_preserves_record {α : Type} (P : Pod α)
    (b : StructBuffer α) (i v : Nat) :
    ((StructBuffer.ext_buffer_mut_set P b i v).buffer).take P.size
      = b.buffer.take P.size ∧
    (StructBuffer.ext_buffer_mut_set P b i v).raw P = b.raw P := by
  have htake : ((StructBuffer.ext_buffer_mut_set P b i v).buffer).take P.size
      = b.buffer.take P.size := by
    simp only [StructBuffer.ext_buffer_mut_set]
    exact take_set_of_le _ _ _ _ (Nat.le_add_right _ _)
  refine ⟨htake, ?_⟩
  rw [StructBuffer.raw, StructBuffer.raw, P.decode_take, htake, ← P.decode_take]
